import Mathlib

/-!
# Verification of the Hyperlane scraper sync-task orchestrator

Shallow embedding of `rust/agents/scraper/src/agent.rs`: the `Scraper`
agent's `from_settings`, `run`, `scrape`, `build_message_indexer` and the
macro-generated `build_delivery_indexer` /
`build_interchain_gas_payment_indexer` task constructors.

External collaborators (the `hyperlane_base` settings factory, the SQL
database accessor, providers, `MetricsUpdater`, `run_all`) are not under
the excerpted source; they are modelled as an explicit environment of
oracles, and side effects (database lookups, task spawns) are made
explicit as an effect trace.  Panics (`unwrap` / `expect`) and propagated
errors (`?`) are modelled with `Except`.
-/

namespace Scraper

/-- `HyperlaneDomain` (hyperlane_core): numeric chain id plus human-readable
name — the two pieces of identity `agent.rs` uses (`domain.id()`,
`domain.name()`). -/
structure HyperlaneDomain where
  id : Nat
  name : String
deriving DecidableEq, Repr

/-- `IndexSettings` (hyperlane_base settings): per-domain cursor pacing
configuration, treated as an opaque value by the orchestrator. -/
structure IndexSettings where
  chunkSize : Nat
  intervalSeconds : Nat
deriving DecidableEq, Repr

/-- The part of a per-chain `ChainConf` that `agent.rs` reads:
`chain_setup.addresses.mailbox` and `chain_setup.index`. -/
structure ChainConf where
  mailbox : Nat
  index : IndexSettings
deriving DecidableEq, Repr

/-- `HyperlaneSqlDb` (crate::chain_scraper, outside the excerpt): a
database-backed accessor scoped to one domain's mailbox.  Modelled from the
spec: an opaque handle built by the environment; the orchestrator only
clones it and calls `last_message_nonce` through the environment. -/
structure HyperlaneSqlDb where
  handle : Nat
  domain : HyperlaneDomain
deriving DecidableEq, Repr

/-- `ChainScraper` (agent.rs): the per-domain registry entry
`{index_settings, db, domain}`. -/
structure ChainScraper where
  index_settings : IndexSettings
  db : HyperlaneSqlDb
  domain : HyperlaneDomain
deriving DecidableEq, Repr

/-- The part of `ScraperSettings` that `agent.rs` reads: the database
config, the list of chains to scrape, and the `chain_setup` lookup. -/
structure Settings where
  dbConfig : Nat
  chainsToScrape : List HyperlaneDomain
  chainSetup : HyperlaneDomain → Option ChainConf

/-- A cursor as handed to `sync(label, cursor)`.  Modelled from the spec:
the cursor constructors `forward_message_sync_cursor(index_settings, seed)`
and `rate_limited_cursor(index_settings)` live in the sync engine
(hyperlane_base, outside the excerpt); the spec describes them as a
ForwardSequential variant seeded with a sequence number and a RateLimited
variant built from `IndexSettings` alone. -/
inductive Cursor
  | forwardSequential (settings : IndexSettings) (seed : Nat)
  | rateLimited (settings : IndexSettings)
deriving DecidableEq, Repr

/-- The tracing span attached to a spawned sync task:
`info_span!("ChainContractSync", chain=%domain.name(), event=label)`. -/
structure Span where
  chain : String
  event : String
deriving DecidableEq, Repr

/-- A task handle (`Instrumented<JoinHandle<eyre::Result<()>>>`): either a
single spawned task carrying its span (and, for sync tasks, the cursor the
engine was started with), or a `run_all` group of handles. -/
inductive Handle
  | task (span : Span) (cursor : Option Cursor)
  | group (members : List Handle)
deriving Repr

mutual

/-- Decidable equality of task handles (the nested `group` constructor
prevents deriving it). -/
def Handle.decEq : (a b : Handle) → Decidable (a = b)
  | .task s1 c1, .task s2 c2 =>
    if h : s1 = s2 ∧ c1 = c2 then
      .isTrue (by rw [h.1, h.2])
    else
      .isFalse (by intro he; cases he; exact h ⟨rfl, rfl⟩)
  | .task _ _, .group _ => .isFalse (fun h => Handle.noConfusion h)
  | .group _, .task _ _ => .isFalse (fun h => Handle.noConfusion h)
  | .group m1, .group m2 =>
    match Handle.decEqList m1 m2 with
    | .isTrue h => .isTrue (by rw [h])
    | .isFalse h => .isFalse (by intro he; cases he; exact h rfl)

/-- Decidable equality of lists of task handles. -/
def Handle.decEqList : (a b : List Handle) → Decidable (a = b)
  | [], [] => .isTrue rfl
  | [], _ :: _ => .isFalse (fun h => List.noConfusion h)
  | _ :: _, [] => .isFalse (fun h => List.noConfusion h)
  | x :: xs, y :: ys =>
    match Handle.decEq x y, Handle.decEqList xs ys with
    | .isTrue h1, .isTrue h2 => .isTrue (by rw [h1, h2])
    | .isFalse h1, _ =>
      .isFalse (by intro he; injection he with he1 he2; exact h1 he1)
    | _, .isFalse h2 =>
      .isFalse (by intro he; injection he with he1 he2; exact h2 he2)

end

instance : DecidableEq Handle := Handle.decEq

/-- Observable side effects of the orchestrator: the
`last_message_nonce` database lookup, and the spawning of a task
(`tokio::spawn` of a sync loop, or `metrics_updater.spawn()`), recorded
with the domain id it was issued for, the span's chain name and the event
label. -/
inductive Effect
  | dbLookupLastNonce (domainId : Nat)
  | spawn (domainId : Nat) (chain : String) (event : String)
deriving DecidableEq, Repr

/-- A panic (`unwrap` / `expect`) site reached during `run`, tagged by the
call site in `agent.rs`. -/
inductive Panic
  /-- `self.scrapers.get(&domain_id).unwrap()` in `scrape`. -/
  | registryGetScrape (domainId : Nat)
  /-- `self.scrapers.get(&domain.id()).unwrap()` in `build_message_indexer`. -/
  | registryGetBuildMsg (domainId : Nat)
  /-- `settings.build_<event>_indexer(..).unwrap()` in a task constructor. -/
  | syncBuild (domainId : Nat) (label : String)
  /-- `KnownHyperlaneDomain::from_u32(*domain).unwrap()` in `run`. -/
  | fromU32 (domainId : Nat)
  /-- `self.settings.chain_setup(&domain.into()).unwrap()` in `run`. -/
  | chainSetupRun (domainId : Nat)
  /-- `MetricsUpdater::new(..).unwrap()` in `run`. -/
  | metricsUpdater (domainId : Nat) (msg : String)
deriving DecidableEq, Repr

/-- A startup error propagated (or an `expect` panic raised) by
`from_settings` before any task exists. -/
inductive StartErr
  /-- `ScraperDb::connect(&settings.db)?` failed. -/
  | connect (msg : String)
  /-- `settings.chain_setup(domain).expect("Missing chain config")`. -/
  | missingChainConfig (domainId : Nat)
  /-- `settings.build_provider(domain, ..)?` failed. -/
  | provider (domainId : Nat) (msg : String)
  /-- `HyperlaneSqlDb::new(..)?` failed. -/
  | sqlDb (domainId : Nat) (msg : String)
deriving DecidableEq, Repr

/-- The external collaborators consumed by the orchestrator, as oracles.
Each field stands for one out-of-excerpt call site:
`ScraperDb::connect`, `settings.build_provider`, `HyperlaneSqlDb::new`,
`db.last_message_nonce`, the three `settings.build_*_indexer` engine
factories (`none` = the `unwrap` would panic), `KnownHyperlaneDomain::
from_u32` followed by `.into()`, and `MetricsUpdater::new`. -/
structure Env where
  connect : Nat → Except String Nat
  buildProvider : HyperlaneDomain → Except String Nat
  sqlDbNew : Nat → Nat → HyperlaneDomain → Nat → IndexSettings →
      Except String HyperlaneSqlDb
  lastMessageNonce : HyperlaneSqlDb → Except String (Option Nat)
  buildMessageIndexer : HyperlaneDomain → Option Unit
  buildDeliveryIndexer : HyperlaneDomain → Option Unit
  buildGasIndexer : HyperlaneDomain → Option Unit
  knownFromU32 : Nat → Option HyperlaneDomain
  metricsUpdaterNew : ChainConf → Except String Unit

/-- The `scrapers: HashMap<u32, ChainScraper>` registry, embedded as an
association list; `insertAssoc` mirrors `HashMap::insert` (replace the
existing binding for an equal key, append otherwise). -/
def insertAssoc (k : Nat) (v : ChainScraper) :
    List (Nat × ChainScraper) → List (Nat × ChainScraper)
  | [] => [(k, v)]
  | (k', v') :: rest =>
    if k' = k then (k, v) :: rest else (k', v') :: insertAssoc k v rest

/-- `HashMap::get` on the embedded registry. -/
def lookupAssoc (k : Nat) : List (Nat × ChainScraper) → Option ChainScraper
  | [] => none
  | (k', v') :: rest => if k' = k then some v' else lookupAssoc k rest

/-- The `Scraper` agent state that `run` reads: the registry and the
settings.  The metrics sink fields (`core_metrics`, `agent_metrics`,
`chain_metrics`, `contract_sync_metrics`) are opaque shared handles passed
through to external constructors and carry no orchestration state. -/
structure Scraper where
  scrapers : List (Nat × ChainScraper)
  settings : Settings

/-- The per-domain loop body of `from_settings`: for each domain of
`chains_to_scrape`, resolve the chain config (`expect`), build a provider
(`?`), build the `HyperlaneSqlDb` accessor (`?`) and insert the
`ChainScraper` entry keyed by `domain.id()`. -/
def from_settings_loop (env : Env) (settings : Settings) (scraperDb : Nat) :
    List HyperlaneDomain → List (Nat × ChainScraper) →
      Except StartErr (List (Nat × ChainScraper))
  | [], acc => .ok acc
  | d :: rest, acc =>
    match settings.chainSetup d with
    | none => .error (.missingChainConfig d.id)
    | some conf =>
      match env.buildProvider d with
      | .error e => .error (.provider d.id e)
      | .ok prov =>
        match env.sqlDbNew scraperDb conf.mailbox d prov conf.index with
        | .error e => .error (.sqlDb d.id e)
        | .ok db =>
          from_settings_loop env settings scraperDb rest
            (insertAssoc d.id ⟨conf.index, db, d⟩ acc)

/-- `Scraper::from_settings`: connect to the scraper database, then build
one registry entry per configured chain.  Any failure aborts startup; no
effect (in particular no spawn) is ever emitted here. -/
def from_settings (env : Env) (settings : Settings) : Except StartErr Scraper :=
  match env.connect settings.dbConfig with
  | .error e => .error (.connect e)
  | .ok scraperDb =>
    match from_settings_loop env settings scraperDb settings.chainsToScrape [] with
    | .error e => .error e
    | .ok m => .ok ⟨m, settings⟩

/-- `run_all` (hyperlane_base).  Modelled from the spec: it "accepts a list
of running task handles … and returns a single handle representing the
whole group"; the handle-level content is the aggregation itself, the
fail-fast runtime semantics is modelled separately by `groupResolve`. -/
def run_all (tasks : List Handle) : Handle :=
  Handle.group tasks

/-- `Scraper::build_message_indexer`: build the message sync engine
(`unwrap`), re-fetch the registry entry by `domain.id()` (`unwrap`), read
`last_message_nonce()` collapsing both a lookup error and an absent value
to `0` (`unwrap_or(None).unwrap_or(0)`), seed a forward message sync
cursor with `latest_nonce.saturating_sub(1)` (`Nat` subtraction), and
spawn the sync loop under the `(chain, "message_dispatch")` span. -/
def build_message_indexer (env : Env) (s : Scraper) (domain : HyperlaneDomain)
    (db : HyperlaneSqlDb) (index_settings : IndexSettings) :
    List Effect × Except Panic Handle :=
  match env.buildMessageIndexer domain with
  | none => ([], .error (.syncBuild domain.id "message_dispatch"))
  | some _ =>
    match lookupAssoc domain.id s.scrapers with
    | none => ([], .error (.registryGetBuildMsg domain.id))
    | some entry =>
      let latest_nonce :=
        match env.lastMessageNonce entry.db with
        | .ok (some n) => n
        | .ok none => 0
        | .error _ => 0
      let cursor := Cursor.forwardSequential index_settings (latest_nonce - 1)
      ([.dbLookupLastNonce domain.id,
        .spawn domain.id domain.name "message_dispatch"],
       .ok (Handle.task ⟨domain.name, "message_dispatch"⟩ (some cursor)))

/-- The body generated by the `spawn_sync_task!` macro for a given engine
factory and event label: build the engine (`unwrap`), build a rate-limited
cursor from the index settings alone, and spawn the sync loop under the
`(chain, label)` span.  The `db` argument is bound into the engine by the
external factory and is not otherwise inspected. -/
def spawn_sync_task (engineBuild : HyperlaneDomain → Option Unit)
    (label : String) (domain : HyperlaneDomain) (db : HyperlaneSqlDb)
    (index_settings : IndexSettings) : List Effect × Except Panic Handle :=
  match engineBuild domain with
  | none => ([], .error (.syncBuild domain.id label))
  | some _ =>
    let _ := db
    let cursor := Cursor.rateLimited index_settings
    ([.spawn domain.id domain.name label],
     .ok (Handle.task ⟨domain.name, label⟩ (some cursor)))

/-- `spawn_sync_task!(build_delivery_indexer, rate_limited_cursor,
"message_delivery")`. -/
def build_delivery_indexer (env : Env) (domain : HyperlaneDomain)
    (db : HyperlaneSqlDb) (index_settings : IndexSettings) :
    List Effect × Except Panic Handle :=
  spawn_sync_task env.buildDeliveryIndexer "message_delivery" domain db
    index_settings

/-- `spawn_sync_task!(build_interchain_gas_payment_indexer,
rate_limited_cursor, "gas_payment")`. -/
def build_interchain_gas_payment_indexer (env : Env)
    (domain : HyperlaneDomain) (db : HyperlaneSqlDb)
    (index_settings : IndexSettings) : List Effect × Except Panic Handle :=
  spawn_sync_task env.buildGasIndexer "gas_payment" domain db index_settings

/-- `Scraper::scrape`: look up the domain's registry entry (`unwrap`),
build and push the three event-sync tasks in order (message dispatch,
message delivery, gas payment), and aggregate them with `run_all`. -/
def scrape (env : Env) (s : Scraper) (domain_id : Nat) :
    List Effect × Except Panic Handle :=
  match lookupAssoc domain_id s.scrapers with
  | none => ([], .error (.registryGetScrape domain_id))
  | some scraper =>
    match build_message_indexer env s scraper.domain scraper.db
        scraper.index_settings with
    | (tr1, .error p) => (tr1, .error p)
    | (tr1, .ok h1) =>
      match build_delivery_indexer env scraper.domain scraper.db
          scraper.index_settings with
      | (tr2, .error p) => (tr1 ++ tr2, .error p)
      | (tr2, .ok h2) =>
        match build_interchain_gas_payment_indexer env scraper.domain
            scraper.db scraper.index_settings with
        | (tr3, .error p) => (tr1 ++ tr2 ++ tr3, .error p)
        | (tr3, .ok h3) =>
          (tr1 ++ tr2 ++ tr3, .ok (run_all [h1, h2, h3]))

/-- The loop body of `run` over the registry keys: push the `scrape` group
handle, then convert the key back to a known domain (`unwrap`), fetch its
chain config (`unwrap`), build the `MetricsUpdater` (`unwrap`) and push
its spawned handle. -/
def runLoop (env : Env) (s : Scraper) :
    List (Nat × ChainScraper) → List Effect × Except Panic (List Handle)
  | [] => ([], .ok [])
  | (k, _) :: rest =>
    match scrape env s k with
    | (tr1, .error p) => (tr1, .error p)
    | (tr1, .ok h) =>
      match env.knownFromU32 k with
      | none => (tr1, .error (.fromU32 k))
      | some kd =>
        match s.settings.chainSetup kd with
        | none => (tr1, .error (.chainSetupRun k))
        | some conf =>
          match env.metricsUpdaterNew conf with
          | .error e => (tr1, .error (.metricsUpdater k e))
          | .ok _ =>
            let mh := Handle.task ⟨kd.name, "metrics"⟩ none
            match runLoop env s rest with
            | (tr2, .error p) =>
              (tr1 ++ [.spawn k kd.name "metrics"] ++ tr2, .error p)
            | (tr2, .ok hs) =>
              (tr1 ++ [.spawn k kd.name "metrics"] ++ tr2,
               .ok (h :: mh :: hs))

/-- `Scraper::run`: for every key of the registry, push the per-domain
scrape group and metrics handles, then aggregate every pushed handle with
one `run_all`. -/
def run (env : Env) (s : Scraper) : List Effect × Except Panic Handle :=
  match runLoop env s s.scrapers with
  | (tr, .error p) => (tr, .error p)
  | (tr, .ok hs) => (tr, .ok (run_all hs))

/-- How a run of the whole agent can abort: a startup error out of
`from_settings`, or a panic out of `run`. -/
inductive Abort
  | startup (e : StartErr)
  | panic (p : Panic)
deriving DecidableEq, Repr

/-- The agent lifecycle as driven by `agent_main`: `from_settings`
followed by `run`. -/
def scraper_main (env : Env) (settings : Settings) :
    List Effect × Except Abort Handle :=
  match from_settings env settings with
  | .error e => ([], .error (.startup e))
  | .ok s =>
    match run env s with
    | (tr, .error p) => (tr, .error (.panic p))
    | (tr, .ok h) => (tr, .ok h)

/-- The nonce value `build_message_indexer` derives from the database
lookup, with an error and an absent value both collapsed to zero. -/
def latestNonce (env : Env) (entry : ChainScraper) : Nat :=
  match env.lastMessageNonce entry.db with
  | .ok (some n) => n
  | .ok none => 0
  | .error _ => 0

/-- The three event labels of the per-domain sync tasks. -/
def syncLabels : List String :=
  ["message_dispatch", "message_delivery", "gas_payment"]

/-- The spawn effects the three sync tasks of one domain produce, in
construction order. -/
def domainSyncTrace (k : Nat) (e : ChainScraper) : List Effect :=
  [.dbLookupLastNonce k,
   .spawn k e.domain.name "message_dispatch",
   .spawn k e.domain.name "message_delivery",
   .spawn k e.domain.name "gas_payment"]

/-- The known domain `run` recovers from a registry key
(`KnownHyperlaneDomain::from_u32(..).into()`), defaulting outside the
successful case. -/
def kdOf (env : Env) (k : Nat) : HyperlaneDomain :=
  (env.knownFromU32 k).getD ⟨0, ""⟩

/-- The inner `run_all` group `scrape` builds for one registry entry. -/
def syncGroupOf (env : Env) (e : ChainScraper) : Handle :=
  run_all
    [.task ⟨e.domain.name, "message_dispatch"⟩
        (some (.forwardSequential e.index_settings (latestNonce env e - 1))),
     .task ⟨e.domain.name, "message_delivery"⟩
        (some (.rateLimited e.index_settings)),
     .task ⟨e.domain.name, "gas_payment"⟩
        (some (.rateLimited e.index_settings))]

/-- The full effect trace of a successful `run` over a registry suffix. -/
def runTrace (env : Env) : List (Nat × ChainScraper) → List Effect
  | [] => []
  | (k, e) :: rest =>
    domainSyncTrace k e ++ [.spawn k (kdOf env k).name "metrics"]
      ++ runTrace env rest

/-- The handles a successful `run` pushes for a registry suffix: per
domain, the scrape group followed by the metrics task. -/
def runHandles (env : Env) : List (Nat × ChainScraper) → List Handle
  | [] => []
  | (k, e) :: rest =>
    syncGroupOf env e :: Handle.task ⟨(kdOf env k).name, "metrics"⟩ none
      :: runHandles env rest

/-- The spawn effects of a trace that are attributed to domain id `k`. -/
def spawnsFor (k : Nat) (tr : List Effect) : List Effect :=
  tr.filter fun e =>
    match e with
    | .spawn k' _ _ => k' == k
    | _ => false

/-- Readiness of one registry entry: its domain id matches its key, the
three sync-engine builds succeed, and the metrics path (`from_u32`,
`chain_setup`, `MetricsUpdater::new`) succeeds. -/
def domainReady (env : Env) (st : Settings) (k : Nat) (e : ChainScraper) :
    Prop :=
  e.domain.id = k ∧
  env.buildMessageIndexer e.domain = some () ∧
  env.buildDeliveryIndexer e.domain = some () ∧
  env.buildGasIndexer e.domain = some () ∧
  ∃ kd conf, env.knownFromU32 k = some kd ∧ st.chainSetup kd = some conf ∧
    env.metricsUpdaterNew conf = .ok ()

/-- Decidable equality for `Except` results, needed to evaluate concrete
task outcomes. -/
instance {e a : Type} [DecidableEq e] [DecidableEq a] :
    DecidableEq (Except e a) := fun x y =>
  match x, y with
  | .ok u, .ok v =>
    if h : u = v then .isTrue (by rw [h])
    else .isFalse (by intro hc; cases hc; exact h rfl)
  | .error u, .error v =>
    if h : u = v then .isTrue (by rw [h])
    else .isFalse (by intro hc; cases hc; exact h rfl)
  | .ok _, .error _ => .isFalse (fun hc => Except.noConfusion hc)
  | .error _, .ok _ => .isFalse (fun hc => Except.noConfusion hc)

/-- Modelled from the spec: the runtime behavior of one member task of a
`run_all` group (`run_all` lives in hyperlane_base, outside the excerpt).
Every member is a long-running sync or metrics loop; its behavior is
abstracted as the number of ticks until it finishes and the
`eyre::Result<()>` it finishes with. -/
structure TaskRun where
  duration : Nat
  outcome : Except String Unit
deriving DecidableEq, Repr

/-- Modelled from the spec: the fail-fast, any-exit-is-terminal supervisor
semantics of a `run_all` group.  At every elapsed tick the group checks
whether some member task has finished; the first member to finish resolves
the whole group at that moment with that member's outcome, and the
remaining members are not awaited further. -/
def groupResolve (fuel elapsed : Nat) (ts : List TaskRun) :
    Option (Nat × Except String Unit) :=
  match fuel with
  | 0 => none
  | fuel + 1 =>
    match ts.find? (fun tk => decide (tk.duration ≤ elapsed)) with
    | some tk => some (elapsed, tk.outcome)
    | none => groupResolve fuel (elapsed + 1) ts

/-- A first test chain. -/
def dom1 : HyperlaneDomain := ⟨1, "test1"⟩

/-- A second test chain. -/
def dom2 : HyperlaneDomain := ⟨2, "test2"⟩

/-- Test index settings. -/
def idx1 : IndexSettings := ⟨100, 5⟩

/-- Test chain configuration shared by the test chains. -/
def confG : ChainConf := ⟨7, idx1⟩

/-- Settings scraping both test chains. -/
def stG : Settings :=
  ⟨0, [dom1, dom2], fun d => if d.id = 1 ∨ d.id = 2 then some confG else none⟩

/-- Settings scraping only the first test chain. -/
def stOne : Settings :=
  ⟨0, [dom1], fun d => if d.id = 1 ∨ d.id = 2 then some confG else none⟩

/-- Settings whose chain-config lookup always fails. -/
def stNone : Settings := ⟨0, [dom1], fun _ => none⟩

/-- An environment in which every external collaborator succeeds. -/
def envG : Env :=
  ⟨fun _ => .ok 42,
   fun _ => .ok 9,
   fun _ _ d _ _ => .ok ⟨50 + d.id, d⟩,
   fun db => .ok (some (db.handle * 10)),
   fun _ => some (),
   fun _ => some (),
   fun _ => some (),
   fun k => if k = 1 then some dom1 else if k = 2 then some dom2 else none,
   fun _ => .ok ()⟩

/-- Like `envG`, but `MetricsUpdater::new` fails. -/
def envBadMetrics : Env := { envG with metricsUpdaterNew := fun _ => .error "mfail" }

/-- Like `envG`, but the nonce lookup returns 1000. -/
def envNonce1000 : Env :=
  { envG with lastMessageNonce := fun _ => .ok (some 1000) }

/-- Like `envG`, but the nonce lookup fails. -/
def envNonceErr : Env :=
  { envG with lastMessageNonce := fun _ => .error "db down" }

/-- The registry entry `from_settings` builds for `dom1` under `envG`. -/
def entry1 : ChainScraper := ⟨idx1, ⟨51, dom1⟩, dom1⟩

/-- The registry entry `from_settings` builds for `dom2` under `envG`. -/
def entry2 : ChainScraper := ⟨idx1, ⟨52, dom2⟩, dom2⟩

/-- The scraper `from_settings envG stG` produces. -/
def sG : Scraper := ⟨[(1, entry1), (2, entry2)], stG⟩

/-- The scraper `from_settings envG stOne` produces. -/
def sOne : Scraper := ⟨[(1, entry1)], stOne⟩

lemma lookupAssoc_eq_of_mem {k : Nat} {e : ChainScraper} :
    ∀ {m : List (Nat × ChainScraper)}, (k, e) ∈ m →
      (m.map Prod.fst).Nodup → lookupAssoc k m = some e := by
  intro m
  induction m with
  | nil => intro hm _; cases hm
  | cons p rest ih =>
    intro hm hN
    obtain ⟨k', e'⟩ := p
    rw [List.map_cons, List.nodup_cons] at hN
    rcases List.mem_cons.mp hm with h | h
    · rw [Prod.mk.injEq] at h
      obtain ⟨h1, h2⟩ := h
      subst h1; subst h2
      simp [lookupAssoc]
    · have hk : k ∈ rest.map Prod.fst := List.mem_map_of_mem Prod.fst h
      have hne : k' ≠ k := fun hkk => hN.1 (hkk ▸ hk)
      simp only [lookupAssoc, if_neg hne]
      exact ih h hN.2

lemma lookupAssoc_isSome_of_mem {k : Nat} {e : ChainScraper} :
    ∀ {m : List (Nat × ChainScraper)}, (k, e) ∈ m →
      ∃ e', lookupAssoc k m = some e' := by
  intro m
  induction m with
  | nil => intro hm; cases hm
  | cons p rest ih =>
    intro hm
    obtain ⟨k', e'⟩ := p
    by_cases hkk : k' = k
    · exact ⟨e', by simp [lookupAssoc, hkk]⟩
    · rcases List.mem_cons.mp hm with h | h
      · rw [Prod.mk.injEq] at h
        exact absurd h.1.symm hkk
      · obtain ⟨e'', he⟩ := ih h
        exact ⟨e'', by simp [lookupAssoc, hkk, he]⟩

lemma assoc_mem_unique {m : List (Nat × ChainScraper)} {k : Nat}
    {a b : ChainScraper} (hN : (m.map Prod.fst).Nodup)
    (h1 : (k, a) ∈ m) (h2 : (k, b) ∈ m) : a = b := by
  have ha := lookupAssoc_eq_of_mem h1 hN
  have hb := lookupAssoc_eq_of_mem h2 hN
  rw [ha] at hb
  injection hb

lemma insertAssoc_map_fst (k : Nat) (v : ChainScraper) :
    ∀ m : List (Nat × ChainScraper),
      (insertAssoc k v m).map Prod.fst =
        if k ∈ m.map Prod.fst then m.map Prod.fst
        else m.map Prod.fst ++ [k] := by
  intro m
  induction m with
  | nil => simp [insertAssoc]
  | cons p rest ih =>
    obtain ⟨k', v'⟩ := p
    by_cases hkk : k' = k
    · subst hkk
      simp [insertAssoc]
    · have hkk' : ¬k = k' := fun h => hkk h.symm
      simp only [insertAssoc, if_neg hkk, List.map_cons, ih]
      by_cases hmem : k ∈ rest.map Prod.fst
      · simp [hmem, List.mem_cons, hkk']
      · simp [hmem, List.mem_cons, hkk']

lemma insertAssoc_nodup {k : Nat} {v : ChainScraper}
    {m : List (Nat × ChainScraper)} (hN : (m.map Prod.fst).Nodup) :
    ((insertAssoc k v m).map Prod.fst).Nodup := by
  rw [insertAssoc_map_fst]
  by_cases hmem : k ∈ m.map Prod.fst
  · simpa [hmem] using hN
  · rw [if_neg hmem, List.nodup_append]
    refine ⟨hN, List.nodup_singleton k, ?_⟩
    intro x hx hx'
    simp only [List.mem_singleton] at hx'
    subst hx'
    exact hmem hx

lemma mem_insertAssoc {p : Nat × ChainScraper} {k : Nat} {v : ChainScraper} :
    ∀ {m : List (Nat × ChainScraper)}, p ∈ insertAssoc k v m →
      p = (k, v) ∨ p ∈ m := by
  intro m
  induction m with
  | nil =>
    intro h
    simp [insertAssoc] at h
    exact Or.inl h
  | cons q rest ih =>
    obtain ⟨k', v'⟩ := q
    intro h
    by_cases hkk : k' = k
    · simp only [insertAssoc, if_pos hkk] at h
      rcases List.mem_cons.mp h with h | h
      · exact Or.inl h
      · exact Or.inr (List.mem_cons_of_mem _ h)
    · simp only [insertAssoc, if_neg hkk] at h
      rcases List.mem_cons.mp h with h | h
      · exact Or.inr (h ▸ List.mem_cons_self _ _)
      · rcases ih h with h | h
        · exact Or.inl h
        · exact Or.inr (List.mem_cons_of_mem _ h)

lemma from_settings_loop_inv (env : Env) (st : Settings) (sdb : Nat) :
    ∀ (l : List HyperlaneDomain) (acc m : List (Nat × ChainScraper)),
      (acc.map Prod.fst).Nodup → (∀ p ∈ acc, p.2.domain.id = p.1) →
      from_settings_loop env st sdb l acc = .ok m →
      (m.map Prod.fst).Nodup ∧ ∀ p ∈ m, p.2.domain.id = p.1 := by
  intro l
  induction l with
  | nil =>
    intro acc m hN hid h
    simp only [from_settings_loop] at h
    injection h with h
    subst h
    exact ⟨hN, hid⟩
  | cons d rest ih =>
    intro acc m hN hid h
    simp only [from_settings_loop] at h
    cases hcs : st.chainSetup d with
    | none =>
      simp only [hcs] at h
      exact Except.noConfusion h
    | some conf =>
      simp only [hcs] at h
      cases hbp : env.buildProvider d with
      | error e =>
        simp only [hbp] at h
        exact Except.noConfusion h
      | ok prov =>
        simp only [hbp] at h
        cases hdb : env.sqlDbNew sdb conf.mailbox d prov conf.index with
        | error e =>
          simp only [hdb] at h
          exact Except.noConfusion h
        | ok dbv =>
          simp only [hdb] at h
          refine ih _ _ (insertAssoc_nodup hN) ?_ h
          intro p hp
          rcases mem_insertAssoc hp with h' | h'
          · subst h'; rfl
          · exact hid p h'

lemma from_settings_inv (env : Env) (st : Settings) (s : Scraper)
    (h : from_settings env st = .ok s) :
    (s.scrapers.map Prod.fst).Nodup ∧
      ∀ p ∈ s.scrapers, p.2.domain.id = p.1 := by
  simp only [from_settings] at h
  cases hc : env.connect st.dbConfig with
  | error e =>
    simp only [hc] at h
    exact Except.noConfusion h
  | ok sdb =>
    simp only [hc] at h
    cases hl : from_settings_loop env st sdb st.chainsToScrape [] with
    | error e =>
      simp only [hl] at h
      exact Except.noConfusion h
    | ok m =>
      simp only [hl] at h
      injection h with h
      subst h
      exact from_settings_loop_inv env st sdb _ [] m (by simp) (by simp) hl


lemma build_message_indexer_ok (env : Env) (s : Scraper)
    (domain : HyperlaneDomain) (db : HyperlaneSqlDb)
    (is : IndexSettings) (entry : ChainScraper)
    (hb : env.buildMessageIndexer domain = some ())
    (hl : lookupAssoc domain.id s.scrapers = some entry) :
    build_message_indexer env s domain db is =
      ([.dbLookupLastNonce domain.id,
        .spawn domain.id domain.name "message_dispatch"],
       .ok (.task ⟨domain.name, "message_dispatch"⟩
          (some (.forwardSequential is (latestNonce env entry - 1))))) := by
  simp only [build_message_indexer, hb, hl, latestNonce]

lemma spawn_sync_task_ok (f : HyperlaneDomain → Option Unit) (label : String)
    (domain : HyperlaneDomain) (db : HyperlaneSqlDb) (is : IndexSettings)
    (hf : f domain = some ()) :
    spawn_sync_task f label domain db is =
      ([.spawn domain.id domain.name label],
       .ok (.task ⟨domain.name, label⟩ (some (.rateLimited is)))) := by
  simp only [spawn_sync_task, hf]

lemma scrape_ok (env : Env) (s : Scraper) (k : Nat) (entry : ChainScraper)
    (hl : lookupAssoc k s.scrapers = some entry)
    (hid : entry.domain.id = k)
    (hb1 : env.buildMessageIndexer entry.domain = some ())
    (hb2 : env.buildDeliveryIndexer entry.domain = some ())
    (hb3 : env.buildGasIndexer entry.domain = some ()) :
    scrape env s k = (domainSyncTrace k entry, .ok (syncGroupOf env entry)) := by
  have hl' : lookupAssoc entry.domain.id s.scrapers = some entry := by
    rw [hid]; exact hl
  simp only [scrape, hl,
    build_message_indexer_ok env s entry.domain entry.db entry.index_settings
      entry hb1 hl',
    build_delivery_indexer, build_interchain_gas_payment_indexer,
    spawn_sync_task_ok _ _ _ _ _ hb2, spawn_sync_task_ok _ _ _ _ _ hb3,
    domainSyncTrace, syncGroupOf, hid]
  simp

lemma runLoop_ok (env : Env) (s : Scraper)
    (hN : (s.scrapers.map Prod.fst).Nodup)
    (hR : ∀ p ∈ s.scrapers, domainReady env s.settings p.1 p.2) :
    ∀ l, (∀ p ∈ l, p ∈ s.scrapers) →
      runLoop env s l = (runTrace env l, .ok (runHandles env l)) := by
  intro l
  induction l with
  | nil => intro _; simp [runLoop, runTrace, runHandles]
  | cons p rest ih =>
    intro hsub
    obtain ⟨k, e⟩ := p
    have hmem : (k, e) ∈ s.scrapers := hsub _ (List.mem_cons_self _ _)
    have hl : lookupAssoc k s.scrapers = some e :=
      lookupAssoc_eq_of_mem hmem hN
    obtain ⟨hid, hb1, hb2, hb3, kd, conf, hkd, hcs, hmu⟩ := hR _ hmem
    have hscr := scrape_ok env s k e hl hid hb1 hb2 hb3
    have hrest := ih fun p hp => hsub _ (List.mem_cons_of_mem _ hp)
    have hkd' : kdOf env k = kd := by simp [kdOf, hkd]
    simp only [runLoop, hscr, hkd, hcs, hmu, hrest, runTrace, runHandles, hkd']

lemma run_ok (env : Env) (s : Scraper)
    (hN : (s.scrapers.map Prod.fst).Nodup)
    (hR : ∀ p ∈ s.scrapers, domainReady env s.settings p.1 p.2) :
    run env s =
      (runTrace env s.scrapers, .ok (run_all (runHandles env s.scrapers))) := by
  simp only [run, runLoop_ok env s hN hR s.scrapers (fun p hp => hp)]

lemma spawnsFor_domainSyncTrace_self (k : Nat) (e : ChainScraper) :
    spawnsFor k (domainSyncTrace k e) =
      [.spawn k e.domain.name "message_dispatch",
       .spawn k e.domain.name "message_delivery",
       .spawn k e.domain.name "gas_payment"] := by
  simp [spawnsFor, domainSyncTrace]

lemma spawnsFor_domainSyncTrace_ne {k k' : Nat} (e : ChainScraper)
    (h : k' ≠ k) : spawnsFor k (domainSyncTrace k' e) = [] := by
  have hb : (k' == k) = false := by simp [h]
  simp [spawnsFor, domainSyncTrace, List.filter, hb]

lemma spawnsFor_append (k : Nat) (t1 t2 : List Effect) :
    spawnsFor k (t1 ++ t2) = spawnsFor k t1 ++ spawnsFor k t2 := by
  simp [spawnsFor, List.filter_append]

lemma spawnsFor_runTrace_not_mem (env : Env) :
    ∀ {m : List (Nat × ChainScraper)} {k : Nat},
      k ∉ m.map Prod.fst → spawnsFor k (runTrace env m) = [] := by
  intro m
  induction m with
  | nil => intro k _; simp [runTrace, spawnsFor]
  | cons p rest ih =>
    intro k hk
    obtain ⟨k', e'⟩ := p
    rw [List.map_cons, List.mem_cons] at hk
    push_neg at hk
    have hne : k' ≠ k := fun h => hk.1 h.symm
    have hb : (k' == k) = false := by simp [hne]
    rw [runTrace, spawnsFor_append, spawnsFor_append,
      spawnsFor_domainSyncTrace_ne e' hne, ih hk.2]
    simp [spawnsFor, List.filter, hb]

lemma spawnsFor_runTrace (env : Env) :
    ∀ {m : List (Nat × ChainScraper)} {k : Nat} {e : ChainScraper},
      (m.map Prod.fst).Nodup → (k, e) ∈ m →
      spawnsFor k (runTrace env m) =
        [.spawn k e.domain.name "message_dispatch",
         .spawn k e.domain.name "message_delivery",
         .spawn k e.domain.name "gas_payment",
         .spawn k (kdOf env k).name "metrics"] := by
  intro m
  induction m with
  | nil => intro k e _ hm; cases hm
  | cons p rest ih =>
    intro k e hN hm
    obtain ⟨k', e'⟩ := p
    rw [List.map_cons, List.nodup_cons] at hN
    rcases List.mem_cons.mp hm with h | h
    · rw [Prod.mk.injEq] at h
      obtain ⟨h1, h2⟩ := h
      subst h1; subst h2
      have hrest : k ∉ rest.map Prod.fst := hN.1
      rw [runTrace, spawnsFor_append, spawnsFor_append,
        spawnsFor_domainSyncTrace_self, spawnsFor_runTrace_not_mem env hrest]
      simp [spawnsFor, List.filter]
    · have hk : k ∈ rest.map Prod.fst := List.mem_map_of_mem Prod.fst h
      have hne : k' ≠ k := fun hkk => hN.1 (hkk ▸ hk)
      have hb : (k' == k) = false := by simp [hne]
      rw [runTrace, spawnsFor_append, spawnsFor_append,
        spawnsFor_domainSyncTrace_ne e' hne, ih hN.2 h]
      simp [spawnsFor, List.filter, hb]

lemma spawn_mem_runTrace (env : Env) :
    ∀ {m : List (Nat × ChainScraper)} {k : Nat} {c lb : String},
      Effect.spawn k c lb ∈ runTrace env m →
      ∃ e, (k, e) ∈ m ∧
        ((lb ∈ syncLabels ∧ c = e.domain.name) ∨
         (lb = "metrics" ∧ c = (kdOf env k).name)) := by
  intro m
  induction m with
  | nil => intro k c lb h; simp [runTrace] at h
  | cons p rest ih =>
    intro k c lb h
    obtain ⟨k', e'⟩ := p
    rw [runTrace] at h
    simp only [domainSyncTrace, List.append_assoc, List.mem_append,
      List.mem_cons, List.mem_singleton, List.not_mem_nil, or_false] at h
    rcases h with ((h | h | h | h) | h | h)
    · exact absurd h (by simp)
    · rw [Effect.spawn.injEq] at h
      obtain ⟨h1, h2, h3⟩ := h
      subst h1
      exact ⟨e', List.mem_cons_self _ _, Or.inl ⟨by simp [syncLabels, h3], h2⟩⟩
    · rw [Effect.spawn.injEq] at h
      obtain ⟨h1, h2, h3⟩ := h
      subst h1
      exact ⟨e', List.mem_cons_self _ _, Or.inl ⟨by simp [syncLabels, h3], h2⟩⟩
    · rw [Effect.spawn.injEq] at h
      obtain ⟨h1, h2, h3⟩ := h
      subst h1
      exact ⟨e', List.mem_cons_self _ _, Or.inl ⟨by simp [syncLabels, h3], h2⟩⟩
    · rw [Effect.spawn.injEq] at h
      obtain ⟨h1, h2, h3⟩ := h
      subst h1
      exact ⟨e', List.mem_cons_self _ _, Or.inr ⟨h3, h2⟩⟩
    · obtain ⟨e, hmem, hcase⟩ := ih h
      exact ⟨e, List.mem_cons_of_mem _ hmem, hcase⟩

lemma mem_runHandles (env : Env) :
    ∀ {m : List (Nat × ChainScraper)} {k : Nat} {e : ChainScraper},
      (k, e) ∈ m →
      syncGroupOf env e ∈ runHandles env m ∧
        Handle.task ⟨(kdOf env k).name, "metrics"⟩ none ∈ runHandles env m := by
  intro m
  induction m with
  | nil => intro k e h; cases h
  | cons p rest ih =>
    intro k e hm
    obtain ⟨k', e'⟩ := p
    rcases List.mem_cons.mp hm with h | h
    · rw [Prod.mk.injEq] at h
      obtain ⟨h1, h2⟩ := h
      subst h1; subst h2
      constructor
      · exact List.mem_cons_self _ _
      · exact List.mem_cons_of_mem _ (List.mem_cons_self _ _)
    · obtain ⟨hg, hmt⟩ := ih h
      exact ⟨List.mem_cons_of_mem _ (List.mem_cons_of_mem _ hg),
        List.mem_cons_of_mem _ (List.mem_cons_of_mem _ hmt)⟩

lemma find?_eq_get_of_first {a : Type} (p : a → Bool) :
    ∀ (l : List a) (k : Nat) (hk : k < l.length),
      (∀ i (hi : i < l.length), i < k → p (l.get ⟨i, hi⟩) = false) →
      p (l.get ⟨k, hk⟩) = true →
      l.find? p = some (l.get ⟨k, hk⟩) := by
  intro l
  induction l with
  | nil => intro k hk _ _; exact absurd hk (by simp)
  | cons x xs ih =>
    intro k hk hbefore hp
    cases k with
    | zero => exact List.find?_cons_of_pos _ hp
    | succ j =>
      have h0 : p x = false := hbefore 0 (by simp) (Nat.succ_pos j)
      rw [List.find?_cons_of_neg _ (by simp [h0])]
      exact ih j (Nat.lt_of_succ_lt_succ hk)
        (fun i hi hij => hbefore (i + 1) (by simpa using Nat.succ_lt_succ hi)
          (Nat.succ_lt_succ hij)) hp

lemma groupResolve_min (ts : List TaskRun) (k : Nat) (hk : k < ts.length)
    (hmin : ∀ j (hj : j < ts.length), j ≠ k →
      (ts.get ⟨k, hk⟩).duration < (ts.get ⟨j, hj⟩).duration) :
    ∀ fuel elapsed, elapsed ≤ (ts.get ⟨k, hk⟩).duration →
      (ts.get ⟨k, hk⟩).duration < fuel + elapsed →
      groupResolve fuel elapsed ts =
        some ((ts.get ⟨k, hk⟩).duration, (ts.get ⟨k, hk⟩).outcome) := by
  intro fuel
  induction fuel with
  | zero => intro elapsed h1 h2; omega
  | succ fuel ih =>
    intro elapsed h1 h2
    by_cases he : elapsed = (ts.get ⟨k, hk⟩).duration
    · rw [groupResolve]
      have hfind : ts.find? (fun tk => decide (tk.duration ≤ elapsed)) =
          some (ts.get ⟨k, hk⟩) := by
        apply find?_eq_get_of_first
        · intro i hi hik
          have hd := hmin i hi (by omega)
          simp only [decide_eq_false_iff_not, not_le]
          omega
        · simp only [decide_eq_true_eq]
          omega
      rw [hfind, he]
    · have hlt : elapsed < (ts.get ⟨k, hk⟩).duration :=
        lt_of_le_of_ne h1 he
      rw [groupResolve]
      have hfind : ts.find? (fun tk => decide (tk.duration ≤ elapsed)) =
          none := by
        rw [List.find?_eq_none]
        intro tk htk
        obtain ⟨⟨j, hj⟩, rfl⟩ := List.mem_iff_get.mp htk
        simp only [decide_eq_true_eq, not_le]
        by_cases hjk : j = k
        · subst hjk
          have : (⟨j, hj⟩ : Fin ts.length) = ⟨j, hk⟩ := rfl
          rw [this]
          omega
        · have := hmin j hj hjk
          omega
      rw [hfind]
      exact ih (elapsed + 1) (by omega) (by omega)

lemma scrape_err (env : Env) (s : Scraper) (k : Nat) (e' : ChainScraper)
    (hl : lookupAssoc k s.scrapers = some e') :
    ∀ tr pc, scrape env s k = (tr, .error pc) →
      (∃ d lb, pc = Panic.syncBuild d lb) ∨
        ∃ d, pc = Panic.registryGetBuildMsg d := by
  intro tr pc h
  cases hb1 : env.buildMessageIndexer e'.domain with
  | none =>
    simp only [scrape, hl, build_message_indexer, hb1, Prod.mk.injEq] at h
    obtain ⟨-, h2⟩ := h
    injection h2 with h2
    exact Or.inl ⟨e'.domain.id, "message_dispatch", h2.symm⟩
  | some u =>
    obtain ⟨⟩ := u
    cases hl2 : lookupAssoc e'.domain.id s.scrapers with
    | none =>
      simp only [scrape, hl, build_message_indexer, hb1, hl2,
        Prod.mk.injEq] at h
      obtain ⟨-, h2⟩ := h
      injection h2 with h2
      exact Or.inr ⟨e'.domain.id, h2.symm⟩
    | some entry2 =>
      cases hb2 : env.buildDeliveryIndexer e'.domain with
      | none =>
        simp only [scrape, hl, build_message_indexer, hb1, hl2,
          build_delivery_indexer, spawn_sync_task, hb2, Prod.mk.injEq] at h
        obtain ⟨-, h2⟩ := h
        injection h2 with h2
        exact Or.inl ⟨e'.domain.id, "message_delivery", h2.symm⟩
      | some u2 =>
        obtain ⟨⟩ := u2
        cases hb3 : env.buildGasIndexer e'.domain with
        | none =>
          simp only [scrape, hl, build_message_indexer, hb1, hl2,
            build_delivery_indexer, build_interchain_gas_payment_indexer,
            spawn_sync_task, hb2, hb3, Prod.mk.injEq] at h
          obtain ⟨-, h2⟩ := h
          injection h2 with h2
          exact Or.inl ⟨e'.domain.id, "gas_payment", h2.symm⟩
        | some u3 =>
          obtain ⟨⟩ := u3
          simp only [scrape, hl, build_message_indexer, hb1, hl2,
            build_delivery_indexer, build_interchain_gas_payment_indexer,
            spawn_sync_task, hb2, hb3, Prod.mk.injEq] at h
          obtain ⟨-, h2⟩ := h
          exact Except.noConfusion h2

lemma runLoop_err (env : Env) (s : Scraper)
    (hMet : ∀ p ∈ s.scrapers, ∃ kd conf,
      env.knownFromU32 p.1 = some kd ∧
      s.settings.chainSetup kd = some conf ∧
      env.metricsUpdaterNew conf = .ok ()) :
    ∀ l, (∀ p ∈ l, p ∈ s.scrapers) →
      ∀ tr pc, runLoop env s l = (tr, .error pc) →
        (∃ d lb, pc = Panic.syncBuild d lb) ∨
          ∃ d, pc = Panic.registryGetBuildMsg d := by
  intro l
  induction l with
  | nil =>
    intro _ tr pc h
    simp only [runLoop, Prod.mk.injEq] at h
    exact Except.noConfusion h.2
  | cons q rest ih =>
    intro hsub tr pc h
    obtain ⟨k, e⟩ := q
    have hmem : (k, e) ∈ s.scrapers := hsub _ (List.mem_cons_self _ _)
    obtain ⟨e', hl⟩ := lookupAssoc_isSome_of_mem hmem
    obtain ⟨kd, conf, hkd, hcs, hmu⟩ := hMet _ hmem
    rcases hscr : scrape env s k with ⟨tr1, r1⟩
    cases r1 with
    | error p1 =>
      simp only [runLoop, hscr, Prod.mk.injEq] at h
      obtain ⟨-, h2⟩ := h
      injection h2 with h2
      subst h2
      exact scrape_err env s k e' hl tr1 p1 hscr
    | ok h1 =>
      rcases hrest : runLoop env s rest with ⟨tr2, r2⟩
      cases r2 with
      | error p2 =>
        simp only [runLoop, hscr, hkd, hcs, hmu, hrest, Prod.mk.injEq] at h
        obtain ⟨-, h2⟩ := h
        injection h2 with h2
        subst h2
        exact ih (fun p hp => hsub _ (List.mem_cons_of_mem _ hp)) tr2 p2 hrest
      | ok hs2 =>
        simp only [runLoop, hscr, hkd, hcs, hmu, hrest, Prod.mk.injEq] at h
        exact Except.noConfusion h.2

/-- C1: for every configured domain, the ForwardSequential
(message_dispatch) cursor starts at max(last_persisted - 1, 0), computed
with saturating subtraction from the highest persisted sequence number
returned by the database, with an absent value treated as zero (so 0, 1
and 1000 yield 0, 0 and 999, and a lookup returning none yields 0). -/
theorem forward_cursor_seed_max (env : Env) (s : Scraper)
    (domain : HyperlaneDomain) (db : HyperlaneSqlDb) (is : IndexSettings)
    (entry : ChainScraper) (r : Option Nat)
    (hb : env.buildMessageIndexer domain = some ())
    (hl : lookupAssoc domain.id s.scrapers = some entry)
    (hr : env.lastMessageNonce entry.db = .ok r) :
    (build_message_indexer env s domain db is).2 =
      .ok (.task ⟨domain.name, "message_dispatch"⟩
        (some (.forwardSequential is (r.getD 0 - 1)))) ∧
    ((r.getD 0 - 1 : Nat) : Int) = max ((r.getD 0 : Nat) - 1 : Int) 0 := by
  constructor
  · rw [build_message_indexer_ok env s domain db is entry hb hl]
    have hn : latestNonce env entry = r.getD 0 := by
      unfold latestNonce
      rw [hr]
      cases r <;> rfl
    rw [hn]
  · omega

/-- Witness for C1 at last-persisted nonce 1000: the seed is
1000 - 1 = 999 = max(999, 0). -/
theorem forward_cursor_seed_max_witness :
    (build_message_indexer envNonce1000 sOne dom1 entry1.db idx1).2 =
      .ok (.task ⟨dom1.name, "message_dispatch"⟩
        (some (.forwardSequential idx1 ((some 1000 : Option Nat).getD 0 - 1)))) ∧
    (((some 1000 : Option Nat).getD 0 - 1 : Nat) : Int) =
      max (((some 1000 : Option Nat).getD 0 : Nat) - 1 : Int) 0 :=
  forward_cursor_seed_max envNonce1000 sOne dom1 entry1.db idx1 entry1
    (some 1000) rfl rfl rfl

/-- C2: for every configured domain, run() spawns exactly four tasks for
that domain — one sync task each labeled message_dispatch,
message_delivery and gas_payment, plus exactly one metrics task — never
more and never fewer. -/
theorem four_tasks_per_domain (env : Env) (s : Scraper)
    (hN : (s.scrapers.map Prod.fst).Nodup)
    (hR : ∀ p ∈ s.scrapers, domainReady env s.settings p.1 p.2)
    (k : Nat) (e : ChainScraper) (hm : (k, e) ∈ s.scrapers) :
    ∃ kd, env.knownFromU32 k = some kd ∧
      spawnsFor k (run env s).1 =
        [.spawn k e.domain.name "message_dispatch",
         .spawn k e.domain.name "message_delivery",
         .spawn k e.domain.name "gas_payment",
         .spawn k kd.name "metrics"] := by
  obtain ⟨-, -, -, -, kd, conf, hkd, -, -⟩ := hR _ hm
  refine ⟨kd, hkd, ?_⟩
  have h1 : (run env s).1 = runTrace env s.scrapers := by
    rw [run_ok env s hN hR]
  rw [h1, spawnsFor_runTrace env hN hm]
  simp [kdOf, hkd]

/-- Witness for C2: under the all-success environment with two chains, the
spawn trace attributed to domain id 1 is exactly the four labeled spawns. -/
theorem four_tasks_per_domain_witness :
    ∃ kd, envG.knownFromU32 1 = some kd ∧
      spawnsFor 1 (run envG sG).1 =
        [.spawn 1 entry1.domain.name "message_dispatch",
         .spawn 1 entry1.domain.name "message_delivery",
         .spawn 1 entry1.domain.name "gas_payment",
         .spawn 1 kd.name "metrics"] :=
  four_tasks_per_domain envG sG (by decide)
    (by
      intro p hp
      rcases List.mem_cons.mp hp with h | h
      · subst h
        exact ⟨rfl, rfl, rfl, rfl, dom1, confG, rfl, by decide, rfl⟩
      · rcases List.mem_cons.mp h with h | h
        · subst h
          exact ⟨rfl, rfl, rfl, rfl, dom2, confG, rfl, by decide, rfl⟩
        · cases h)
    1 entry1 (by decide)

/-- C3 counterexample: a MetricsUpdater construction failure is a
construction error for the domain, yet it aborts the run only after the
three sync tasks of that domain have already been spawned, so it does not
abort before any task for any domain is spawned, as the claim requires. -/
theorem startup_isolation_counterexample :
    scraper_main envBadMetrics stOne =
      ([.dbLookupLastNonce 1,
        .spawn 1 "test1" "message_dispatch",
        .spawn 1 "test1" "message_delivery",
        .spawn 1 "test1" "gas_payment"],
       .error (.panic (.metricsUpdater 1 "mfail"))) ∧
    Effect.spawn 1 "test1" "message_dispatch" ∈
      (scraper_main envBadMetrics stOne).1 := by
  constructor
  · rfl
  · decide

/-- C3 (amended): any configuration or construction error detected by
from_settings (database connect failure, missing chain config, provider or
database-accessor build failure) aborts the entire run before any task for
any domain is spawned; sync-engine and metrics-updater build failures,
which happen inside run(), abort the run only after the tasks already
constructed have been spawned. -/
theorem from_settings_error_aborts_before_spawn (env : Env) (st : Settings)
    (e : StartErr) (h : from_settings env st = .error e) :
    scraper_main env st = ([], .error (.startup e)) := by
  simp only [scraper_main, h]

/-- Witness for the amended C3: with every chain config missing,
from_settings fails and the agent aborts with an empty effect trace. -/
theorem from_settings_error_aborts_before_spawn_witness :
    scraper_main envG stNone = ([], .error (.startup (.missingChainConfig 1))) :=
  from_settings_error_aborts_before_spawn envG stNone _ rfl

/-- C4: the run_all group is a fail-fast, any-exit-is-terminal supervisor
(modelled from the spec, run_all being hyperlane_base code outside the
excerpt): whichever member task finishes first determines the group
outcome, the group resolves exactly at that member task's finish time with
that member task's own success-or-error outcome, independent of the other
members' durations and outcomes, and the remaining tasks are not awaited
beyond that point. -/
theorem group_fail_fast (ts : List TaskRun) (k : Nat) (hk : k < ts.length)
    (hmin : ∀ j (hj : j < ts.length), j ≠ k →
      (ts.get ⟨k, hk⟩).duration < (ts.get ⟨j, hj⟩).duration)
    (fuel : Nat) (hf : (ts.get ⟨k, hk⟩).duration < fuel) :
    groupResolve fuel 0 ts =
      some ((ts.get ⟨k, hk⟩).duration, (ts.get ⟨k, hk⟩).outcome) :=
  groupResolve_min ts k hk hmin fuel 0 (Nat.zero_le _) (by omega)

/-- Witness for C4: in a three-member group whose second member errors
first at tick 2, the group resolves at tick 2 with that error even though
the other members are still running. -/
theorem group_fail_fast_witness :
    groupResolve 3 0
        [⟨5, .ok ()⟩, ⟨2, .error "boom"⟩, ⟨9, .ok ()⟩] =
      some (2, .error "boom") :=
  group_fail_fast [⟨5, .ok ()⟩, ⟨2, .error "boom"⟩, ⟨9, .ok ()⟩]
    1 (by decide) (by decide) 3 (by decide)

/-- C5 counterexample: with one configured domain, the group handle run()
returns does not contain the domain's message_dispatch task as a direct
member, and hence the MetricsTask is not in one TaskGroup together with
the three event-sync tasks: the sync tasks live in a nested per-domain
group built by scrape(). -/
theorem single_group_counterexample :
    ¬ ∃ members,
        (run envG sOne).2 = .ok (Handle.group members) ∧
        Handle.task ⟨"test1", "message_dispatch"⟩
            (some (.forwardSequential idx1 509)) ∈ members ∧
        Handle.task ⟨"test1", "metrics"⟩ none ∈ members := by
  rintro ⟨members, hmem, ht, -⟩
  have hrun : (run envG sOne).2 =
      .ok (Handle.group
        [Handle.group
          [Handle.task ⟨"test1", "message_dispatch"⟩
              (some (.forwardSequential idx1 509)),
           Handle.task ⟨"test1", "message_delivery"⟩
              (some (.rateLimited idx1)),
           Handle.task ⟨"test1", "gas_payment"⟩
              (some (.rateLimited idx1))],
         Handle.task ⟨"test1", "metrics"⟩ none]) := by rfl
  rw [hrun] at hmem
  injection hmem with hmem
  injection hmem with hmem
  subst hmem
  revert ht
  decide

/-- C5 (amended): run() returns a single top-level run_all group, but the
aggregation is nested: for each domain, scrape() first collects the three
event-sync tasks into a per-domain group, and the top-level group contains
that per-domain group handle and the domain's metrics task as direct
members, so every spawned task is supervised under the one returned handle
transitively rather than as a flat collection. -/
theorem nested_group_structure (env : Env) (s : Scraper)
    (hN : (s.scrapers.map Prod.fst).Nodup)
    (hR : ∀ p ∈ s.scrapers, domainReady env s.settings p.1 p.2) :
    run env s =
      (runTrace env s.scrapers, .ok (run_all (runHandles env s.scrapers))) ∧
    ∀ k e, (k, e) ∈ s.scrapers →
      syncGroupOf env e ∈ runHandles env s.scrapers ∧
      Handle.task ⟨(kdOf env k).name, "metrics"⟩ none ∈
        runHandles env s.scrapers := by
  refine ⟨run_ok env s hN hR, ?_⟩
  intro k e hm
  exact mem_runHandles env hm

/-- Witness for the amended C5 at the two-chain fixture. -/
theorem nested_group_structure_witness :
    run envG sG =
      (runTrace envG sG.scrapers, .ok (run_all (runHandles envG sG.scrapers))) ∧
    ∀ k e, (k, e) ∈ sG.scrapers →
      syncGroupOf envG e ∈ runHandles envG sG.scrapers ∧
      Handle.task ⟨(kdOf envG k).name, "metrics"⟩ none ∈
        runHandles envG sG.scrapers :=
  nested_group_structure envG sG (by decide)
    (by
      intro p hp
      rcases List.mem_cons.mp hp with h | h
      · subst h
        exact ⟨rfl, rfl, rfl, rfl, dom1, confG, rfl, by decide, rfl⟩
      · rcases List.mem_cons.mp h with h | h
        · subst h
          exact ⟨rfl, rfl, rfl, rfl, dom2, confG, rfl, by decide, rfl⟩
        · cases h)

/-- C6: every spawned event-sync task is attributed to its originating
domain: any sync-labeled spawn recorded for domain id k carries that
domain's name as its chain label, and for two distinct domains with
distinct names no sync-labeled record of one is attributed to the other's
name. -/
theorem spawn_label_attribution (env : Env) (s : Scraper)
    (hN : (s.scrapers.map Prod.fst).Nodup)
    (hR : ∀ p ∈ s.scrapers, domainReady env s.settings p.1 p.2)
    (k : Nat) (e : ChainScraper) (hm : (k, e) ∈ s.scrapers) :
    (∀ c lb, Effect.spawn k c lb ∈ (run env s).1 → lb ∈ syncLabels →
      c = e.domain.name) ∧
    ∀ k' e' c lb, (k', e') ∈ s.scrapers → k' ≠ k →
      e'.domain.name ≠ e.domain.name →
      Effect.spawn k c lb ∈ (run env s).1 → lb ∈ syncLabels →
      c ≠ e'.domain.name := by
  have hrun : (run env s).1 = runTrace env s.scrapers := by
    rw [run_ok env s hN hR]
  have main : ∀ c lb, Effect.spawn k c lb ∈ (run env s).1 →
      lb ∈ syncLabels → c = e.domain.name := by
    intro c lb hmem hlb
    rw [hrun] at hmem
    obtain ⟨e0, hmem0, hcase⟩ := spawn_mem_runTrace env hmem
    rcases hcase with ⟨-, hc⟩ | ⟨hmet, -⟩
    · have he : e0 = e := assoc_mem_unique hN hmem0 hm
      rw [hc, he]
    · subst hmet
      exact absurd hlb (by decide)
  refine ⟨main, ?_⟩
  intro k' e' c lb _ _ hne hmem hlb
  rw [main c lb hmem hlb]
  exact fun hcontra => hne hcontra.symm

/-- Witness for C6 at the two-chain fixture, for domain id 1. -/
theorem spawn_label_attribution_witness :
    (∀ c lb, Effect.spawn 1 c lb ∈ (run envG sG).1 → lb ∈ syncLabels →
      c = entry1.domain.name) ∧
    ∀ k' e' c lb, (k', e') ∈ sG.scrapers → k' ≠ 1 →
      e'.domain.name ≠ entry1.domain.name →
      Effect.spawn 1 c lb ∈ (run envG sG).1 → lb ∈ syncLabels →
      c ≠ e'.domain.name :=
  spawn_label_attribution envG sG (by decide)
    (by
      intro p hp
      rcases List.mem_cons.mp hp with h | h
      · subst h
        exact ⟨rfl, rfl, rfl, rfl, dom1, confG, rfl, by decide, rfl⟩
      · rcases List.mem_cons.mp h with h | h
        · subst h
          exact ⟨rfl, rfl, rfl, rfl, dom2, confG, rfl, by decide, rfl⟩
        · cases h)
    1 entry1 (by decide)

/-- C7: for every domain, the delivery and gas-payment tasks use
rate-limited cursors built from the domain's IndexSettings alone — no
last-persisted-sequence lookup is performed (no dbLookupLastNonce effect)
and no seed is passed — and the constructors' results are unchanged under
any variation of the environment that keeps the engine factories fixed. -/
theorem rate_limited_no_db_lookup (env env' : Env)
    (domain : HyperlaneDomain) (db : HyperlaneSqlDb) (is : IndexSettings)
    (hd : env.buildDeliveryIndexer domain = some ())
    (hg : env.buildGasIndexer domain = some ())
    (hd' : env'.buildDeliveryIndexer = env.buildDeliveryIndexer)
    (hg' : env'.buildGasIndexer = env.buildGasIndexer) :
    build_delivery_indexer env domain db is =
      ([.spawn domain.id domain.name "message_delivery"],
       .ok (.task ⟨domain.name, "message_delivery"⟩
          (some (.rateLimited is)))) ∧
    build_interchain_gas_payment_indexer env domain db is =
      ([.spawn domain.id domain.name "gas_payment"],
       .ok (.task ⟨domain.name, "gas_payment"⟩ (some (.rateLimited is)))) ∧
    (∀ i, Effect.dbLookupLastNonce i ∉
      (build_delivery_indexer env domain db is).1) ∧
    (∀ i, Effect.dbLookupLastNonce i ∉
      (build_interchain_gas_payment_indexer env domain db is).1) ∧
    build_delivery_indexer env' domain db is =
      build_delivery_indexer env domain db is ∧
    build_interchain_gas_payment_indexer env' domain db is =
      build_interchain_gas_payment_indexer env domain db is := by
  refine ⟨spawn_sync_task_ok _ _ _ _ _ hd, spawn_sync_task_ok _ _ _ _ _ hg,
    ?_, ?_, ?_, ?_⟩
  · intro i
    simp [build_delivery_indexer, spawn_sync_task, hd]
  · intro i
    simp [build_interchain_gas_payment_indexer, spawn_sync_task, hg]
  · simp [build_delivery_indexer, hd']
  · simp [build_interchain_gas_payment_indexer, hg']

/-- Witness for C7 at the all-success fixture. -/
theorem rate_limited_no_db_lookup_witness :
    build_delivery_indexer envG dom1 entry1.db idx1 =
      ([.spawn dom1.id dom1.name "message_delivery"],
       .ok (.task ⟨dom1.name, "message_delivery"⟩
          (some (.rateLimited idx1)))) ∧
    build_interchain_gas_payment_indexer envG dom1 entry1.db idx1 =
      ([.spawn dom1.id dom1.name "gas_payment"],
       .ok (.task ⟨dom1.name, "gas_payment"⟩ (some (.rateLimited idx1)))) ∧
    (∀ i, Effect.dbLookupLastNonce i ∉
      (build_delivery_indexer envG dom1 entry1.db idx1).1) ∧
    (∀ i, Effect.dbLookupLastNonce i ∉
      (build_interchain_gas_payment_indexer envG dom1 entry1.db idx1).1) ∧
    build_delivery_indexer envG dom1 entry1.db idx1 =
      build_delivery_indexer envG dom1 entry1.db idx1 ∧
    build_interchain_gas_payment_indexer envG dom1 entry1.db idx1 =
      build_interchain_gas_payment_indexer envG dom1 entry1.db idx1 :=
  rate_limited_no_db_lookup envG envG dom1 entry1.db idx1 rfl rfl rfl rfl

/-- C8: when the last-persisted-nonce lookup returns an error,
build_message_indexer does not propagate it: the build still succeeds and
the message_dispatch cursor is seeded at 0. -/
theorem nonce_error_silent_zero (env : Env) (s : Scraper)
    (domain : HyperlaneDomain) (db : HyperlaneSqlDb) (is : IndexSettings)
    (entry : ChainScraper) (msg : String)
    (hb : env.buildMessageIndexer domain = some ())
    (hl : lookupAssoc domain.id s.scrapers = some entry)
    (hr : env.lastMessageNonce entry.db = .error msg) :
    build_message_indexer env s domain db is =
      ([.dbLookupLastNonce domain.id,
        .spawn domain.id domain.name "message_dispatch"],
       .ok (.task ⟨domain.name, "message_dispatch"⟩
          (some (.forwardSequential is 0)))) := by
  rw [build_message_indexer_ok env s domain db is entry hb hl]
  have hn : latestNonce env entry = 0 := by
    unfold latestNonce
    rw [hr]
  rw [hn]

/-- Witness for C8: with a failing nonce lookup, the build succeeds and
seeds the cursor at 0. -/
theorem nonce_error_silent_zero_witness :
    build_message_indexer envNonceErr sOne dom1 entry1.db idx1 =
      ([.dbLookupLastNonce dom1.id,
        .spawn dom1.id dom1.name "message_dispatch"],
       .ok (.task ⟨dom1.name, "message_dispatch"⟩
          (some (.forwardSequential idx1 0)))) :=
  nonce_error_silent_zero envNonceErr sOne dom1 entry1.db idx1 entry1
    "db down" rfl rfl rfl

/-- C9: when every registry key corresponds to a known domain whose chain
config exists and whose MetricsUpdater constructs, the unwraps in run()
and scrape() cannot panic: every registry lookup by a key taken from the
registry's own keys succeeds, and the only panics run() can still raise
come from the sync-engine build or the registry re-lookup inside
build_message_indexer — not from run() or scrape() themselves. -/
theorem no_panic_in_run_scrape (env : Env) (s : Scraper)
    (hMet : ∀ p ∈ s.scrapers, ∃ kd conf,
      env.knownFromU32 p.1 = some kd ∧
      s.settings.chainSetup kd = some conf ∧
      env.metricsUpdaterNew conf = .ok ()) :
    (∀ k e, (k, e) ∈ s.scrapers → ∃ e', lookupAssoc k s.scrapers = some e') ∧
    ∀ tr pc, run env s = (tr, .error pc) →
      (∃ d lb, pc = Panic.syncBuild d lb) ∨
        ∃ d, pc = Panic.registryGetBuildMsg d := by
  refine ⟨fun k e hm => lookupAssoc_isSome_of_mem hm, ?_⟩
  intro tr pc h
  rcases hloop : runLoop env s s.scrapers with ⟨tr2, r2⟩
  cases r2 with
  | error p2 =>
    simp only [run, hloop, Prod.mk.injEq] at h
    obtain ⟨-, h2⟩ := h
    injection h2 with h2
    subst h2
    exact runLoop_err env s hMet s.scrapers (fun p hp => hp) tr2 p2 hloop
  | ok hs =>
    simp only [run, hloop, Prod.mk.injEq] at h
    exact Except.noConfusion h.2

/-- Witness for C9 at the two-chain fixture. -/
theorem no_panic_in_run_scrape_witness :
    (∀ k e, (k, e) ∈ sG.scrapers → ∃ e', lookupAssoc k sG.scrapers = some e') ∧
    ∀ tr pc, run envG sG = (tr, .error pc) →
      (∃ d lb, pc = Panic.syncBuild d lb) ∨
        ∃ d, pc = Panic.registryGetBuildMsg d :=
  no_panic_in_run_scrape envG sG
    (by
      intro p hp
      rcases List.mem_cons.mp hp with h | h
      · subst h
        exact ⟨dom1, confG, rfl, by decide, rfl⟩
      · rcases List.mem_cons.mp h with h | h
        · subst h
          exact ⟨dom2, confG, rfl, by decide, rfl⟩
        · cases h)

/-- C10: the registry built by from_settings is keyed by the numeric
domain id: its keys are pairwise distinct (exactly one entry per distinct
id), every key k maps to an entry whose domain id is k, and when two
configured chains share an id the later one overwrites the earlier, the
registry ending up with the single later entry. -/
theorem registry_keyed_by_id (env : Env) (st : Settings) (s : Scraper)
    (h : from_settings env st = .ok s) :
    (s.scrapers.map Prod.fst).Nodup ∧
    (∀ p ∈ s.scrapers, p.2.domain.id = p.1) ∧
    ∀ da db2, st.chainsToScrape = [da, db2] → da.id = db2.id →
      ∃ e, s.scrapers = [(db2.id, e)] ∧ e.domain = db2 := by
  obtain ⟨hN, hid⟩ := from_settings_inv env st s h
  refine ⟨hN, hid, ?_⟩
  intro da db2 hchains hidid
  simp only [from_settings] at h
  cases hc : env.connect st.dbConfig with
  | error e =>
    simp only [hc] at h
    exact Except.noConfusion h
  | ok sdb =>
    simp only [hc, hchains] at h
    cases hcs1 : st.chainSetup da with
    | none =>
      simp only [from_settings_loop, hcs1] at h
      exact Except.noConfusion h
    | some conf1 =>
      cases hbp1 : env.buildProvider da with
      | error e =>
        simp only [from_settings_loop, hcs1, hbp1] at h
        exact Except.noConfusion h
      | ok prov1 =>
        cases hdb1 : env.sqlDbNew sdb conf1.mailbox da prov1 conf1.index with
        | error e =>
          simp only [from_settings_loop, hcs1, hbp1, hdb1] at h
          exact Except.noConfusion h
        | ok dbv1 =>
          cases hcs2 : st.chainSetup db2 with
          | none =>
            simp only [from_settings_loop, hcs1, hbp1, hdb1, hcs2] at h
            exact Except.noConfusion h
          | some conf2 =>
            cases hbp2 : env.buildProvider db2 with
            | error e =>
              simp only [from_settings_loop, hcs1, hbp1, hdb1, hcs2,
                hbp2] at h
              exact Except.noConfusion h
            | ok prov2 =>
              cases hdb2 : env.sqlDbNew sdb conf2.mailbox db2 prov2
                  conf2.index with
              | error e =>
                simp only [from_settings_loop, hcs1, hbp1, hdb1, hcs2, hbp2,
                  hdb2] at h
                exact Except.noConfusion h
              | ok dbv2 =>
                simp only [from_settings_loop, hcs1, hbp1, hdb1, hcs2, hbp2,
                  hdb2, insertAssoc, hidid] at h
                injection h with h
                refine ⟨⟨conf2.index, dbv2, db2⟩, ?_, rfl⟩
                rw [← h]
                simp

/-- Witness for C10 at the all-success two-chain fixture. -/
theorem registry_keyed_by_id_witness :
    (sG.scrapers.map Prod.fst).Nodup ∧
    (∀ p ∈ sG.scrapers, p.2.domain.id = p.1) ∧
    ∀ da db2, stG.chainsToScrape = [da, db2] → da.id = db2.id →
      ∃ e, sG.scrapers = [(db2.id, e)] ∧ e.domain = db2 :=
  registry_keyed_by_id envG stG sG rfl

end Scraper
